import Mathlib

/-!
Verification development for `nanoaod/monitor_crab_jobs.py`.

The script polls crab job status for a set of samples, parses the textual
output of an external status command, aggregates per-sample completion
percentages and renders a static HTML dashboard.  This file gives a shallow
embedding of the data model and of the operations of that script, translated
directly from the Python source, and proves properties about them.

Modelling conventions:
- Python `dict` values (status mappings, meta info) become association lists
  `List (String × String)` with an insert-or-overwrite update that mirrors
  Python dict assignment (existing key keeps its position, new key is
  appended), which is exactly the insertion-order semantics of Python dicts.
- Python `float` values appearing in the script are decimal percentage
  numbers; they are modelled as exact rationals (`Rat`).  All percentages in
  play are short decimal literals, which are represented exactly.
- Code that can raise an exception is modelled in `Except String` with the
  exception class recorded in the message.
- Python string operations (`split`, `replace`, `strip`, `startswith`,
  `in`, `lower`) are re-implemented over `List Char` with structural
  recursion so that every definition evaluates inside the kernel.
-/

set_option maxRecDepth 4000

/-- Whitespace test matching the separators relevant to Python `str.split()`
with no argument (space, tab, newline, carriage return). -/
def isWs (c : Char) : Bool :=
  c == ' ' || c == '\t' || c == '\n' || c == '\r'

/-- Helper for `pyWords`: split a character list on runs of whitespace,
accumulating the current word in reverse. -/
def splitWsAux : List Char → List Char → List (List Char)
  | [], acc => if acc.isEmpty then [] else [acc.reverse]
  | c :: rest, acc =>
    if isWs c then
      if acc.isEmpty then splitWsAux rest []
      else acc.reverse :: splitWsAux rest []
    else splitWsAux rest (c :: acc)

/-- Python `s.split()` with no argument: split on whitespace runs, dropping
empty words. -/
def pyWords (s : String) : List String :=
  (splitWsAux s.toList []).map (fun l => ⟨l⟩)

/-- Helper for `pySplitOnChar`: split on every occurrence of a separator
character, keeping empty pieces, as Python `s.split(sep)` does. -/
def splitCharAux (c : Char) : List Char → List Char → List (List Char)
  | [], acc => [acc.reverse]
  | x :: rest, acc =>
    if x == c then acc.reverse :: splitCharAux c rest []
    else splitCharAux c rest (x :: acc)

/-- Python `s.split(sep)` for a single-character separator. -/
def pySplitOnChar (c : Char) (s : String) : List String :=
  (splitCharAux c s.toList []).map (fun l => ⟨l⟩)

/-- Fuel-indexed helper for `pyReplace`: replace occurrences of `pat`
left-to-right, non-overlapping.  The fuel is the length of the subject, which
bounds the number of steps whenever `pat` is nonempty. -/
def replaceListAux (pat repl : List Char) : Nat → List Char → List Char
  | 0, s => s
  | _ + 1, [] => []
  | fuel + 1, c :: rest =>
    if pat.isPrefixOf (c :: rest) then
      repl ++ replaceListAux pat repl fuel ((c :: rest).drop pat.length)
    else
      c :: replaceListAux pat repl fuel rest

/-- Python `s.replace(pat, repl)`: left-to-right non-overlapping replacement
of every occurrence.  For the empty pattern the subject is returned
unchanged; the script only ever replaces nonempty patterns. -/
def pyReplace (s pat repl : String) : String :=
  if pat.isEmpty then s
  else ⟨replaceListAux pat.toList repl.toList s.toList.length s.toList⟩

/-- Substring containment over character lists: some suffix of the haystack
has the pattern as a prefix. -/
def listContainsSub (pat : List Char) : List Char → Bool
  | [] => pat.isEmpty
  | c :: rest => pat.isPrefixOf (c :: rest) || listContainsSub pat rest

/-- Python `pat in s` for strings: substring containment. -/
def pyIn (pat s : String) : Bool :=
  listContainsSub pat.toList s.toList

/-- Python `s.startswith(pre)`. -/
def pyStartswith (s pre : String) : Bool :=
  pre.toList.isPrefixOf s.toList

/-- Python `s.strip(c)` for a single strip character: remove every leading
and trailing occurrence of `c`. -/
def pyStripChar (c : Char) (s : String) : String :=
  ⟨((s.toList.dropWhile (fun x => x == c)).reverse.dropWhile (fun x => x == c)).reverse⟩

/-- Python `s.lower()` (ASCII case folding, which covers every string the
script compares). -/
def pyLower (s : String) : String :=
  ⟨s.toList.map Char.toLower⟩

/-- Lexicographic comparison of character lists by code point; this is the
`<=` that Python string comparison (and hence `sorted`) uses. -/
def lexLe : List Char → List Char → Bool
  | [], _ => true
  | _ :: _, [] => false
  | a :: as, b :: bs => if a = b then lexLe as bs else decide (a < b)

/-- Python `a <= b` on strings: lexicographic by code point. -/
def pyStrLe (a b : String) : Bool :=
  lexLe a.toList b.toList

/-- Python `os.path.basename(p)`: the part of the path after the last
slash. -/
def pyBasename (p : String) : String :=
  ⟨(p.toList.reverse.takeWhile (fun x => x != '/')).reverse⟩

/-- All characters are decimal digits. -/
def allDigits (l : List Char) : Bool :=
  l.all (fun c => c.isDigit)

/-- Value of a decimal digit string. -/
def digitsToNat (l : List Char) : Nat :=
  l.foldl (fun a c => a * 10 + (c.toNat - 48)) 0

/-- Python `float(s)` restricted to the plain decimal grammar
`[sign] digits [. digits]` that the crab percentage strings use; `none`
models the `ValueError` that `float` raises on anything unparseable.  The
value is an exact rational, which represents every decimal literal
exactly. -/
def parseFloat? (s : String) : Option Rat :=
  match s.toList with
  | [] => none
  | l =>
    let neg : Bool := match l with
      | '-' :: _ => true
      | _ => false
    let l2 : List Char := match l with
      | '-' :: rest => rest
      | '+' :: rest => rest
      | _ => l
    let signed : Nat → Int := fun n => if neg then -(n : Int) else (n : Int)
    match splitCharAux '.' l2 [] with
    | [ip] =>
      if !ip.isEmpty && allDigits ip then
        some (mkRat (signed (digitsToNat ip)) 1)
      else none
    | [ip, fp] =>
      if (!ip.isEmpty || !fp.isEmpty) && allDigits ip && allDigits fp then
        some (mkRat (signed (digitsToNat ip * 10 ^ fp.length + digitsToNat fp)) (10 ^ fp.length))
      else none
    | _ => none

/-- Rational addition written through `mkRat`, which evaluates inside the
kernel; used for the running offset of the progress bar.  It agrees with
the addition of `Rat` (`ratAdd_eq_add`). -/
def ratAdd (a b : Rat) : Rat :=
  mkRat (a.num * b.den + b.num * a.den) (a.den * b.den)

/-- Python `==` between a `float` value and a `str` value.  In Python 3 no
builtin cross-type equality exists between numbers and strings, so the
comparison is always `False`.  This models the comparison
of `finished_fraction` with the string literal `0%` on line 202 of the script, where
`finished_fraction` is a `float`. -/
def pyFloatEqStr (_x : Rat) (_s : String) : Bool :=
  false

/-! ## Python dict model -/

/-- A Python `str -> str` dict in insertion order with unique keys. -/
abbrev Dict := List (String × String)

/-- Dict lookup: value of the first entry with the given key. -/
def dictGet? : Dict → String → Option String
  | [], _ => none
  | (k0, v0) :: rest, k => if k0 = k then some v0 else dictGet? rest k

/-- Dict lookup with a default value. -/
def dictGetD (d : Dict) (k dflt : String) : String :=
  (dictGet? d k).getD dflt

/-- Python `k in d.keys()`. -/
def dictContains (d : Dict) (k : String) : Bool :=
  d.any (fun p => p.1 == k)

/-- Python dict assignment `d[k] = v`: overwrite in place if the key exists
(keeping its position), otherwise append. -/
def dictInsert : Dict → String → String → Dict
  | [], k, v => [(k, v)]
  | (k0, v0) :: rest, k, v =>
    if k0 = k then (k0, v) :: rest else (k0, v0) :: dictInsert rest k v

/-- The keys of a dict, in order. -/
def dictKeys (d : Dict) : List String :=
  d.map Prod.fst

/-! ## Status parser (script lines 342-360)

The `__main__` section of the script parses the log-file text of a
successful `crab status` invocation line by line.  For each line it removes
the marker `Jobs status:`, splits into whitespace tokens, skips empty
lines, then for every known job-status keyword occurring as a substring of
the first token stores the second token (or the sentinel `<none>` when the
line has a single token) into the status dict of the sample; a line starting
with the dashboard marker stores its 4th token as the grafana link, raising
an `IndexError` when that token does not exist. -/

/-- The known job-status keywords of script lines 347-349. -/
def knownStatuses : List String :=
  ["finished", "running", "transferring", "failed", "killed", "idle", "unsubmitted", "toRetry"]

/-- Per-sample mutable state threaded through the parsing loop: the status
dict of the sample, its grafana link, and the `jobsfailed` flag of line
333/356. -/
structure ParseState where
  status : Dict
  grafana : String
  jobsfailed : Bool
deriving DecidableEq

/-- Tokens of a line after the removal of `Jobs status:` (script lines
343-344). -/
def lineWords (line : String) : List String :=
  pyWords (pyReplace line "Jobs status:" "")

/-- First whitespace token of the processed line. -/
def lineFirstWord (line : String) : String :=
  (lineWords line).headD ""

/-- Second whitespace token of the processed line, or the `<none>` sentinel
of the `try`/`except` on lines 351-352. -/
def lineFrac (line : String) : String :=
  ((lineWords line).get? 1).getD "<none>"

/-- Body of the keyword loop of lines 347-357: when the keyword occurs as a
substring of the first token (`if status in words[0]`, line 350), store the
fraction and record whether failed jobs were seen. -/
def parseStep (w0 frac : String) (st : ParseState) (s : String) : ParseState :=
  if pyIn s w0 then
    { st with
      status := dictInsert st.status s frac
      jobsfailed := st.jobsfailed || (s == "failed") }
  else st

/-- The keyword loop of lines 346-357 over one line: fold `parseStep` over
the known statuses. -/
def lineFold (st : ParseState) (line : String) : ParseState :=
  knownStatuses.foldl (parseStep (lineFirstWord line) (lineFrac line)) st

/-- Processing of one output line (script lines 342-360): skip lines with
no tokens (line 345), run the keyword loop, then the dashboard check of
lines 359-360 on the processed line.  The error case models the uncaught
`IndexError` of `words[3]` on line 360 when a line starts with the
dashboard marker but has fewer than 4 tokens. -/
def parseLineE (st : ParseState) (line : String) : Except String ParseState :=
  if (lineWords line).isEmpty then .ok st
  else if pyStartswith (pyReplace line "Jobs status:" "") "Dashboard monitoring URL" then
    match (lineWords line).get? 3 with
    | some url => .ok { lineFold st line with grafana := url }
    | none => .error "IndexError: list index out of range"
  else .ok (lineFold st line)

/-- The full parsing loop `for line in outlines` of line 342. -/
def parseLinesE (st : ParseState) : List String → Except String ParseState
  | [] => .ok st
  | l :: rest =>
    match parseLineE st l with
    | .ok st2 => parseLinesE st2 rest
    | .error e => .error e

/-- Completion check of script lines 362-366.  It sits after (not inside)
the line loop, so it inspects only the loop variable left over from the last
iteration: the last output line, with `Jobs status:` already removed.  The
`none` case (empty output) is unreachable on the success path, where at
least one `Jobs status:` line exists. -/
def statusCompleted (outlines : List String) (resultsFileExists : Bool) : Bool :=
  match outlines.getLast? with
  | none => false
  | some l0 =>
    let l := pyReplace l0 "Jobs status:" ""
    if pyIn "Status on the scheduler" l then
      if pyIn "COMPLETED" l then !resultsFileExists else false
    else false

/-! ## Aggregator (script lines 264-330)

One sample is polled with up to 5 attempts of the external status command
(`while (attempt<5 and not success)`, line 314).  An attempt succeeds when
the produced log file is nonempty and contains exactly one line starting
with `Jobs status:` (lines 320-322).  On exhausted attempts the status dict
of the sample is replaced by the single failure entry and the loop moves to
the next sample (lines 327-330); on success the same log lines are parsed.
The output of the external command at each attempt is modelled as a function
from the attempt index to the list of log lines.  The optional resubmission
of lines 368-374 only fires an external command and changes no recorded
state, so it stays outside the model, as does the console report of the
completion flag (line 378). -/

/-- Success check for one attempt (script lines 319-322). -/
def attemptSucceeds (outlines : List String) : Bool :=
  if outlines.length > 0 then
    (outlines.filter (fun l => pyStartswith l "Jobs status:")).length == 1
  else false

/-- Retry loop of lines 312-326: starting at the given attempt counter and
with the given amount of fuel, return the index of the first successful
attempt below 5, if any.  The fuel (5 at the entry point) makes the
recursion structural; the `attempt < 5` test is the loop condition of line
314. -/
def findSuccessAux (outputs : Nat → List String) : Nat → Nat → Option Nat
  | _, 0 => none
  | attempt, fuel + 1 =>
    if attempt < 5 then
      if attemptSucceeds (outputs attempt) then some attempt
      else findSuccessAux outputs (attempt + 1) fuel
    else none

/-- Index of the successful attempt of the retry loop, if any. -/
def findSuccess (outputs : Nat → List String) : Option Nat :=
  findSuccessAux outputs 0 5

/-- Initial per-sample record of line 298: status mapping `finished -> 0%`,
empty grafana link. -/
def initParseState : ParseState :=
  { status := [("finished", "0%")], grafana := "", jobsfailed := false }

/-- The failure marker dict of line 329. -/
def failedStatus : Dict :=
  [("crab status", "failed")]

/-- Aggregation of one sample (lines 296-360): run the retry loop; on
failure replace the status dict by the failure marker and keep the empty
grafana link; on success parse the log lines of the successful attempt,
starting from the initial record. -/
def aggregateSample (outputs : Nat → List String) : Except String ParseState :=
  match findSuccess outputs with
  | none => .ok { status := failedStatus, grafana := "", jobsfailed := false }
  | some k => parseLinesE initParseState (outputs k)

/-- Sorted order in which the polling loop visits the discovered sample
folders: `sorted(glob.glob(...))` on line 266, i.e. a stable sort of the
full paths under the code-point order of Python strings.  `insertionSort`
is stable, hence produces the same list as Python `sorted`. -/
def discoveredOrder (paths : List String) : List String :=
  List.insertionSort (fun a b : String => pyStrLe a b = true) paths

/-- The keys under which samples are recorded in the aggregate dict:
`os.path.basename(f)` for each discovered folder, in polling order (line
298). -/
def sampleKeys (paths : List String) : List String :=
  (discoveredOrder paths).map pyBasename

/-! ## Report renderer (script lines 17-228)

The `web` function converts the aggregate data into one HTML document.
Braces of the CSS text are written with their character escapes. -/

/-- The fixed CSS style string of `define_css_style` (lines 17-77). -/
def define_css_style : String :=
  "<style>"
  ++ "body \x7b\nmargin: 0;\npadding: 0;\nwidth: 100%;\n\x7d\n"
  ++ "h1 \x7b\nwidth: 100%;\ntext-align: center;\nfont-size:20px;\nmargin:0;\npadding:0;\nbackground: red;\ncolor: #FFF;\ndisplay: inline-block;\n\x7d\n"
  ++ "h3 \x7b\nwidth: 100%;\ntext-align: center;\nfont-size:15px;\nbackground: #EAEDED;\nmargin:0;\npadding:0;\ndisplay: inline-block;\n\x7d\n"
  ++ ".divide tr td \x7b width:60%; \x7d\n"
  ++ ".progress-container \x7b\nwidth: 100%;\nheight: 20px;\nborder: 1px solid black;\nposition: relative;\npadding: 3px;\n\x7d\n"
  ++ ".progress-text \x7b\nposition: absolute;\nleft: 5%;\n\x7d\n"
  ++ ".progress-bar \x7b\nposition: absolute;\nheight: 20px;\n\x7d\n"
  ++ "</style>\n"

/-- One colored bar of the progress bar: the status it shows, its CSS
color, its left offset and its width (both in percent).  Offsets and widths
are the float values computed on lines 96-99, as exact rationals. -/
structure Segment where
  status : String
  color : String
  left : Rat
  width : Rat
deriving DecidableEq

/-- The fixed status-to-color dict of `make_progress_bar` (lines 86-91), in
its insertion order, which is also the iteration order of the loop on line
94. -/
def barColors : List (String × String) :=
  [("finished", "lightgreen"), ("transferring", "turquoise"),
   ("running", "deepskyblue"), ("failed", "crimson")]

/-- `float(progress_values[status].strip('%'))` of line 96. -/
def pvFloat? (pv : Dict) (status : String) : Option Rat :=
  parseFloat? (pyStripChar '%' (dictGetD pv status ""))

/-- The loop of lines 93-99: walk the color dict, skip statuses absent from
the mapping, give each emitted segment the running cumulative sum as left
offset and its parsed percentage as width.  `none` models the `ValueError`
raised by `float` on an unparseable percentage string. -/
def progressSegmentsAux (pv : Dict) : Rat → List (String × String) → Option (List Segment)
  | _, [] => some []
  | cumul, (status, color) :: rest =>
    if dictContains pv status then
      match pvFloat? pv status with
      | none => none
      | some val =>
        match progressSegmentsAux pv (ratAdd cumul val) rest with
        | none => none
        | some segs => some ({ status := status, color := color, left := cumul, width := val } :: segs)
    else progressSegmentsAux pv cumul rest

/-- The segments of the progress bar of a status mapping. -/
def progressSegments (pv : Dict) : Option (List Segment) :=
  progressSegmentsAux pv 0 barColors

/-- The overlay text of line 85: all status/percentage pairs of the mapping,
space-joined, in dict order. -/
def progressText (pv : Dict) : String :=
  String.intercalate " " (pv.map (fun p => p.1 ++ ": " ++ p.2))

/-- Stand-in for the Python `str` formatting of a float in the style string
of line 97.  The exact float rendering is irrelevant to every claim; the
number is printed as a rational. -/
def ratStr (q : Rat) : String :=
  toString q

/-- The `div` element of one segment (lines 97-98). -/
def segmentDiv (seg : Segment) : String :=
  "<div class=\"progress-bar\" style=\"left: " ++ ratStr seg.left
  ++ "%; width: " ++ ratStr seg.width
  ++ "%; background-color: " ++ seg.color ++ "\"></div>"

/-- `make_progress_bar` (lines 80-102): container, one div per segment, and
the overlay text. -/
def make_progress_bar (pv : Dict) : Except String String :=
  match progressSegments pv with
  | none => .error "ValueError: could not convert string to float"
  | some segs =>
    .ok ("<td> <div class=\"progress-container\">"
      ++ String.join (segs.map segmentDiv)
      ++ "<div class=\"progress-text\">" ++ progressText pv ++ "</div>"
      ++ "</div></td>")

/-- One value of the `samples` dict handed to `web`: the status dict plus
the optional grafana entry (its presence is tested on line 183).  The
`__main__` section always creates both keys (line 298). -/
structure SampleEntry where
  status : Dict
  grafana : Option String
deriving DecidableEq

/-- The dict argument of `web` as described by its docstring: the optional
`meta` mapping and the `samples` mapping from sample name to entry. -/
structure MonitorData where
  meta : Option Dict
  samples : List (String × SampleEntry)
deriving DecidableEq

/-- The sample ordering of line 160:
`sorted(list(sampledata.keys()), key=lambda x: x.lower())`, a stable sort
under the case-folded code-point order.  `insertionSort` is stable, hence
produces the same list as Python `sorted`. -/
def sortSamplesForRender (keys : List String) : List String :=
  List.insertionSort (fun a b : String => pyStrLe (pyLower a) (pyLower b) = true) keys

/-- Lookup of `sampledata[sample]`; the default is unreachable because `web`
iterates exactly over the keys of the mapping. -/
def lookupEntry (sampledata : List (String × SampleEntry)) (k : String) : SampleEntry :=
  match sampledata.find? (fun p => p.1 == k) with
  | some p => p.2
  | none => { status := [], grafana := none }

/-- Name formatting of lines 167-179: `(samplename, sampleshortname,
versionshortname)`.  `production` is computed by the script but never
used. -/
def sampleNameParts (sample : String) : String × String × String :=
  if (pySplitOnChar '/' sample).length - 1 == 2 then
    let parts := pySplitOnChar '/' sample
    let samplename := parts.getD 1 ""
    let sampleshortname := (pySplitOnChar '_' samplename).headD ""
    let versionname := parts.getD 2 ""
    let versionshortname := (pySplitOnChar '-' (pyReplace versionname "crab_" "")).headD ""
    (samplename, sampleshortname, versionshortname)
  else (sample, sample, "-")

/-- The stale-status guard condition of lines 199-202.  `finished_fraction`
is the float parsed on line 193, compared with the string literal `0%`;
the comparison is a Python cross-type equality and therefore always
`False`. -/
def webGuard (sample_status : Dict) (finished_fraction : Rat) (force : Bool) : Bool :=
  !force && (sample_status.length == 1)
    && dictContains sample_status "finished"
    && pyFloatEqStr finished_fraction "0%"

/-- `float(sample_status[key].strip('%'))` of lines 193-195, defaulting to 0
when the key is absent; `Except` carries the `ValueError` of `float`. -/
def sampleFraction (sample_status : Dict) (key : String) : Except String Rat :=
  if dictContains sample_status key then
    match pvFloat? sample_status key with
    | some v => .ok v
    | none => .error "ValueError: could not convert string to float"
  else .ok 0

/-- The error message raised by the guard (lines 203-207). -/
def webGuardMsg (samplename : String) : String :=
  "ERROR: the status for the sample " ++ samplename
  ++ " seems to be irretrievable,"
  ++ " perhaps the submission is too long ago?"
  ++ " Will not update the webpage to avoid overwriting useful information."

/-- Processing of one sample inside the loop of lines 164-220: name
formatting, grafana default, the three fraction parses of lines 190-195
(`transferring_fraction` and `running_fraction` are computed and never
used, but their `float` calls can still raise), the stale-status guard, and
the HTML table row of lines 210-220.  The `status_str` of lines 188-189 is
a pure computation the script never uses and is omitted. -/
def webSampleRow (sampledata : List (String × SampleEntry)) (force : Bool) (sample : String) :
    Except String String := do
  let entry := lookupEntry sampledata sample
  let names := sampleNameParts sample
  let sample_grafana := match entry.grafana with
    | some g => g
    | none => ""
  let sample_status := entry.status
  let finished_fraction ← sampleFraction sample_status "finished"
  let _transferring_fraction ← sampleFraction sample_status "transferring"
  let _running_fraction ← sampleFraction sample_status "running"
  if webGuard sample_status finished_fraction force then
    .error (webGuardMsg names.1)
  else do
    let bar ← make_progress_bar sample_status
    .ok ("<table class=\"divide\" cellpadding=\"5px\" cellspacing=\"0\">\n<tr>\n"
      ++ "<td style=\"width:20%\">" ++ names.2.1 ++ "</td>"
      ++ "<td style=\"width:20%\">" ++ names.2.2 ++ "</td>"
      ++ bar
      ++ "<td style=\"width:20%\"> <a href=\"" ++ sample_grafana
      ++ "\" target=\"_blank\">Grafana</a> </td>\n</tr>\n")

/-- Page header of lines 129-136; `now` is the formatted timestamp of line
135. -/
def webHeader (now : String) : String :=
  "<html>\n<head>\n" ++ define_css_style ++ "</head>\n<body>\n"
  ++ "<table style=\"background-color:#2C3E50;color:#EAECEE;"
  ++ "font-size:40px;width:100%;text-align: center;\">"
  ++ "<tr><td>Status of ntuple production</td></tr>"
  ++ "<tr><td style=\"font-size:15px;\">Last update: " ++ now ++ "</td></tr>"
  ++ "</table>\n"

/-- Meta-info section of lines 139-154. -/
def webMeta (meta : Option Dict) : String :=
  "<div id=\"meta-info\"><h1>Meta-info</h1></div>\n"
  ++ match meta with
  | some m =>
    String.join (m.map (fun p =>
      "<table class=\"divide\" cellpadding=\"5px\" cellspacing=\"0\">\n<tr>\n"
      ++ "<td style=\"width:30%\">" ++ p.1 ++ "</td>"
      ++ "<td style=\"widht:70%\">" ++ p.2 ++ "</td>\n</tr>\n"))
    ++ "</table>\n"
  | none =>
    "<table class=\"divide\" cellpadding=\"5px\" cellspacing=\"0\">\n<tr>\n"
    ++ "<td>(nothing to display)</td></tr>\n</table>\n"

/-- The `web` function (lines 105-228) as a pure document builder: given
the aggregate data, the formatted timestamp, and the `force` flag, either
the exception raised during page construction or the full `index.html`
text that is written at the end.  Filesystem effects (directory creation,
the file write of lines 226-228) are outside the model; an `.ok` result
means the file is written with exactly this content, an `.error` means the
run aborts before the write, leaving any previous file unchanged. -/
def webModel (data : MonitorData) (now : String) (force : Bool) : Except String String := do
  let samples := sortSamplesForRender (data.samples.map Prod.fst)
  let rows ← samples.foldlM (fun acc s => do
    let r ← webSampleRow data.samples force s
    pure (acc ++ r)) ""
  pure (webHeader now
    ++ webMeta data.meta
    ++ "<div id=\"samples\"><h1>Samples</h1></div>\n"
    ++ rows
    ++ "</table>\n</body>\n</html>")

/-! ## Concrete inputs used by counterexamples and witnesses -/

/-- Whether a page-construction result is a successful write. -/
def isOkE (e : Except String String) : Bool :=
  match e with
  | .ok _ => true
  | .error _ => false

/-- Aggregate data with one sample whose status mapping is exactly
`finished -> 0%`, the situation the stale-status guard is meant to catch. -/
def webBugData : MonitorData :=
  { meta := none,
    samples := [("sample", { status := [("finished", "0%")], grafana := some "" })] }

/-- Command outputs where every attempt produces no output at all. -/
def allFailOutputs : Nat → List String :=
  fun _ => []

/-- Command outputs where every attempt succeeds with a single status
line. -/
def okOutputs : Nat → List String :=
  fun _ => ["Jobs status: finished 100%"]

/-- The sample record produced by aggregating `okOutputs`. -/
def okParsedState : ParseState :=
  { status := [("finished", "100%")], grafana := "", jobsfailed := false }

/-- An empty sample record, to watch entries being created. -/
def emptyParseState : ParseState :=
  { status := [], grafana := "", jobsfailed := false }

/-- The record obtained from `emptyParseState` by the line
`notfinished 10%`. -/
def c3StateAfter : ParseState :=
  { status := [("finished", "10%")], grafana := "", jobsfailed := false }

/-- The record obtained from `initParseState` by the line
`finished 55%`. -/
def c3WitnessState : ParseState :=
  { status := [("finished", "55%")], grafana := "", jobsfailed := false }

/-- The status mapping of the progress-bar example in the specification. -/
def pv50 : Dict :=
  [("finished", "50%"), ("running", "50%")]

/-- The two segments the progress bar renders for `pv50`. -/
def segs50 : List Segment :=
  [{ status := "finished", color := "lightgreen", left := 0, width := 50 },
   { status := "running", color := "deepskyblue", left := 50, width := 50 }]

/-- Two discovered sample-folder paths whose poll order and render order
disagree. -/
def pathsC6 : List String :=
  ["a/crab_logs/b", "z/crab_logs/a"]

/-- A successful status output whose scheduler-completion line is not the
last line. -/
def linesC8 : List String :=
  ["Jobs status: finished 100%", "Status on the scheduler: COMPLETED", "Log file saved"]

/-- A line list whose dashboard line carries at least 4 tokens. -/
def c7Lines : List String :=
  ["Dashboard monitoring URL: https://grafana extra"]

/-- The statuses of `barColors` present in a mapping, in bar order. -/
def presentStatuses (pv : Dict) : List String :=
  (barColors.map Prod.fst).filter (fun s => dictContains pv s)

/-! ## Lemmas -/

theorem ratAdd_eq_add (a b : Rat) : ratAdd a b = a + b := by
  rw [Rat.add_def']
  simp [ratAdd, Rat.mkRat_eq_divInt]

theorem dictGet?_insert_self (d : Dict) (k v : String) :
    dictGet? (dictInsert d k v) k = some v := by
  induction d with
  | nil => simp [dictInsert, dictGet?]
  | cons p rest ih =>
    by_cases h : p.1 = k
    · simp [dictInsert, dictGet?, h]
    · simp [dictInsert, dictGet?, h, ih]

theorem dictGet?_insert_ne (d : Dict) (k v k' : String) (h : k' ≠ k) :
    dictGet? (dictInsert d k v) k' = dictGet? d k' := by
  induction d with
  | nil =>
    have hkk : ¬ k = k' := fun hh => h hh.symm
    simp [dictInsert, dictGet?, hkk]
  | cons p rest ih =>
    rcases p with ⟨k0, v0⟩
    have hkk : ¬ k = k' := fun hh => h hh.symm
    by_cases h1 : k0 = k
    · simp [dictInsert, dictGet?, h1, hkk]
    · by_cases h2 : k0 = k'
      · simp [dictInsert, dictGet?, h1, h2, h]
      · simp [dictInsert, dictGet?, h1, h2, ih]

theorem mem_dictKeys_iff (d : Dict) (k : String) :
    k ∈ dictKeys d ↔ dictGet? d k ≠ none := by
  induction d with
  | nil => simp [dictKeys, dictGet?]
  | cons p rest ih =>
    rcases p with ⟨k0, v0⟩
    have hkeys : dictKeys ((k0, v0) :: rest) = k0 :: dictKeys rest := rfl
    rw [hkeys]
    by_cases h : k0 = k
    · subst h
      simp [dictGet?]
    · have h2 : ¬ k = k0 := fun hh => h hh.symm
      simp [dictGet?, h, h2, ih]

/-! ## Parser lemmas -/

theorem pyIn_known_empty (k : String) (hk : k ∈ knownStatuses) : pyIn k "" = false := by
  have h : ∀ x ∈ knownStatuses, pyIn x "" = false := by decide
  exact h k hk

theorem foldl_parseStep_get (w0 frac k : String) (L : List String) :
    ∀ st : ParseState,
      dictGet? (L.foldl (parseStep w0 frac) st).status k =
        if k ∈ L ∧ pyIn k w0 = true then some frac else dictGet? st.status k := by
  induction L with
  | nil => intro st; simp
  | cons s L ih =>
    intro st
    rw [List.foldl_cons, ih]
    by_cases hkL : k ∈ L ∧ pyIn k w0 = true
    · rw [if_pos hkL,
        if_pos (⟨List.mem_cons_of_mem s hkL.1, hkL.2⟩ : k ∈ s :: L ∧ pyIn k w0 = true)]
    · rw [if_neg hkL]
      by_cases hp : pyIn k w0 = true
      · have hkL2 : k ∉ L := fun h => hkL ⟨h, hp⟩
        by_cases hsk : s = k
        · subst hsk
          rw [if_pos ⟨List.mem_cons_self s L, hp⟩]
          simp [parseStep, hp, dictGet?_insert_self]
        · have hcond : ¬ (k ∈ s :: L ∧ pyIn k w0 = true) := by
            intro hc
            rcases List.mem_cons.mp hc.1 with h | h
            · exact hsk h.symm
            · exact hkL2 h
          rw [if_neg hcond]
          by_cases hs : pyIn s w0 = true
          · simp [parseStep, hs, dictGet?_insert_ne _ _ _ _ (fun h => hsk h.symm)]
          · simp [parseStep, hs]
      · have hcond : ¬ (k ∈ s :: L ∧ pyIn k w0 = true) := fun hc => hp hc.2
        rw [if_neg hcond]
        by_cases hs : pyIn s w0 = true
        · by_cases hsk : s = k
          · subst hsk; exact absurd hs hp
          · simp [parseStep, hs, dictGet?_insert_ne _ _ _ _ (fun h => hsk h.symm)]
        · simp [parseStep, hs]

theorem parseLineE_ok_status (st st' : ParseState) (line : String)
    (hok : parseLineE st line = .ok st') :
    st'.status = if (lineWords line).isEmpty then st.status else (lineFold st line).status := by
  unfold parseLineE at hok
  by_cases he : (lineWords line).isEmpty
  · rw [if_pos he] at hok
    rw [Except.ok.injEq] at hok
    subst hok
    rw [if_pos he]
  · rw [if_neg he] at hok
    rw [if_neg he]
    split at hok
    · split at hok
      · rw [Except.ok.injEq] at hok
        subst hok
        rfl
      · simp at hok
    · rw [Except.ok.injEq] at hok
      subst hok
      rfl

theorem parseLineE_get_known (st st' : ParseState) (line k : String)
    (hk : k ∈ knownStatuses) (hok : parseLineE st line = .ok st') :
    dictGet? st'.status k =
      if pyIn k (lineFirstWord line) = true then some (lineFrac line)
      else dictGet? st.status k := by
  have hstat := parseLineE_ok_status st st' line hok
  by_cases he : (lineWords line).isEmpty
  · rw [if_pos he] at hstat
    have hw : lineFirstWord line = "" := by
      unfold lineFirstWord
      cases hl : lineWords line with
      | nil => rfl
      | cons a l => rw [hl] at he; simp at he
    have hf : pyIn k (lineFirstWord line) = false := by
      rw [hw]; exact pyIn_known_empty k hk
    rw [hstat, hf]
    simp
  · rw [if_neg he] at hstat
    rw [hstat]
    unfold lineFold
    rw [foldl_parseStep_get]
    by_cases hp : pyIn k (lineFirstWord line) = true
    · rw [if_pos ⟨hk, hp⟩, if_pos hp]
    · rw [if_neg (fun h => hp h.2), if_neg hp]

theorem parseLineE_get_unknown (st st' : ParseState) (line k : String)
    (hk : k ∉ knownStatuses) (hok : parseLineE st line = .ok st') :
    dictGet? st'.status k = dictGet? st.status k := by
  have hstat := parseLineE_ok_status st st' line hok
  by_cases he : (lineWords line).isEmpty
  · rw [if_pos he] at hstat; rw [hstat]
  · rw [if_neg he] at hstat
    rw [hstat]
    unfold lineFold
    rw [foldl_parseStep_get]
    rw [if_neg (fun h => hk h.1)]

theorem parseLinesE_get_unchanged (k : String) (hk : k ∈ knownStatuses) :
    ∀ (lines : List String) (st st' : ParseState),
      parseLinesE st lines = .ok st' →
      (∀ l ∈ lines, pyIn k (lineFirstWord l) = false) →
      dictGet? st'.status k = dictGet? st.status k := by
  intro lines
  induction lines with
  | nil =>
    intro st st' hok _
    unfold parseLinesE at hok
    rw [Except.ok.injEq] at hok
    subst hok
    rfl
  | cons l rest ih =>
    intro st st' hok hall
    unfold parseLinesE at hok
    cases hline : parseLineE st l with
    | ok st2 =>
      rw [hline] at hok
      have h1 := parseLineE_get_known st st2 l k hk hline
      rw [hall l (List.mem_cons_self l rest)] at h1
      simp only [Bool.false_eq_true, if_false] at h1
      rw [ih st2 st' hok (fun x hx => hall x (List.mem_cons_of_mem l hx)), h1]
    | error e =>
      rw [hline] at hok
      simp at hok

theorem parseLinesE_get_ne_none (k : String) :
    ∀ (lines : List String) (st st' : ParseState),
      parseLinesE st lines = .ok st' →
      dictGet? st.status k ≠ none → dictGet? st'.status k ≠ none := by
  intro lines
  induction lines with
  | nil =>
    intro st st' hok hne
    unfold parseLinesE at hok
    rw [Except.ok.injEq] at hok
    subst hok
    exact hne
  | cons l rest ih =>
    intro st st' hok hne
    unfold parseLinesE at hok
    cases hline : parseLineE st l with
    | ok st2 =>
      rw [hline] at hok
      have hne2 : dictGet? st2.status k ≠ none := by
        by_cases hk : k ∈ knownStatuses
        · have h1 := parseLineE_get_known st st2 l k hk hline
          by_cases hp : pyIn k (lineFirstWord l) = true
          · rw [if_pos hp] at h1
            rw [h1]
            simp
          · rw [if_neg hp] at h1
            rw [h1]
            exact hne
        · rw [parseLineE_get_unknown st st2 l k hk hline]
          exact hne
      exact ih st2 st' hok hne2
    | error e =>
      rw [hline] at hok
      simp at hok

theorem parseLinesE_get_unknown_all (k : String) (hk : k ∉ knownStatuses) :
    ∀ (lines : List String) (st st' : ParseState),
      parseLinesE st lines = .ok st' →
      dictGet? st'.status k = dictGet? st.status k := by
  intro lines
  induction lines with
  | nil =>
    intro st st' hok
    unfold parseLinesE at hok
    rw [Except.ok.injEq] at hok
    subst hok
    rfl
  | cons l rest ih =>
    intro st st' hok
    unfold parseLinesE at hok
    cases hline : parseLineE st l with
    | ok st2 =>
      rw [hline] at hok
      rw [ih st2 st' hok, parseLineE_get_unknown st st2 l k hk hline]
    | error e =>
      rw [hline] at hok
      simp at hok

theorem parseLinesE_keys (k : String) (lines : List String) (st st' : ParseState)
    (hok : parseLinesE st lines = .ok st') (hmem : k ∈ dictKeys st'.status) :
    k ∈ dictKeys st.status ∨ k ∈ knownStatuses := by
  by_cases hk : k ∈ knownStatuses
  · exact Or.inr hk
  · left
    rw [mem_dictKeys_iff] at hmem ⊢
    rw [← parseLinesE_get_unknown_all k hk lines st st' hok]
    exact hmem

/-! ## Progress-bar lemmas -/

theorem progressSegmentsAux_spec (pv : Dict) :
    ∀ (L : List (String × String)) (c : Rat) (segs : List Segment),
      progressSegmentsAux pv c L = some segs →
      segs.map Segment.status = (L.map Prod.fst).filter (fun s => dictContains pv s)
      ∧ (∀ seg ∈ segs, pvFloat? pv seg.status = some seg.width)
      ∧ (∀ i (hi : i < segs.length),
          (segs.get ⟨i, hi⟩).left = c + ((segs.take i).map Segment.width).sum) := by
  intro L
  induction L with
  | nil =>
    intro c segs h
    unfold progressSegmentsAux at h
    rw [Option.some.injEq] at h
    subst h
    refine ⟨by simp, by simp, ?_⟩
    intro i hi
    simp at hi
  | cons p rest ih =>
    rcases p with ⟨status, color⟩
    intro c segs h
    unfold progressSegmentsAux at h
    by_cases hc : dictContains pv status
    · rw [if_pos hc] at h
      split at h
      · simp at h
      · rename_i val hv
        split at h
        · simp at h
        · rename_i segs' hrec
          simp only [Option.some.injEq] at h
          subst h
          obtain ⟨h1, h2, h3⟩ := ih (ratAdd c val) segs' hrec
          refine ⟨?_, ?_, ?_⟩
          · simp only [List.map_cons, List.filter_cons, hc, h1, if_true]
          · intro seg hseg
            rcases List.mem_cons.mp hseg with hh | hh
            · subst hh; simpa using hv
            · exact h2 seg hh
          · intro i hi
            cases i with
            | zero => simp
            | succ j =>
              have hj : j < segs'.length := by simpa using hi
              have hleft := h3 j hj
              rw [ratAdd_eq_add] at hleft
              simp only [List.get_cons_succ, List.take_succ_cons, List.map_cons, List.sum_cons]
              rw [hleft]
              ring
    · rw [if_neg hc] at h
      obtain ⟨h1, h2, h3⟩ := ih c segs h
      refine ⟨?_, h2, h3⟩
      simp only [List.map_cons, List.filter_cons, hc, h1]
      simp

/-! ## Renderer lemmas -/

theorem webGuard_false (d : Dict) (fr : Rat) (fo : Bool) :
    webGuard d fr fo = false := by
  simp [webGuard, pyFloatEqStr]

theorem webSampleRow_force (sd : List (String × SampleEntry)) (f : Bool) (s : String) :
    webSampleRow sd f s = webSampleRow sd true s := by
  unfold webSampleRow
  simp [webGuard_false]

/-! ## Retry-loop lemmas -/

theorem findSuccess_none (outputs : Nat → List String)
    (h : ∀ k, k < 5 → attemptSucceeds (outputs k) = false) :
    findSuccess outputs = none := by
  have h0 := h 0 (by omega)
  have h1 := h 1 (by omega)
  have h2 := h 2 (by omega)
  have h3 := h 3 (by omega)
  have h4 := h 4 (by omega)
  simp [findSuccess, findSuccessAux, h0, h1, h2, h3, h4]

/-! ## Sort-relation lemmas and instances -/

theorem lexLe_total : ∀ (x y : List Char), lexLe x y = true ∨ lexLe y x = true := by
  intro x
  induction x with
  | nil => intro y; left; rfl
  | cons a as ih =>
    intro y
    cases y with
    | nil => right; rfl
    | cons b bs =>
      by_cases hab : a = b
      · subst hab
        rcases ih bs with h | h
        · left; simp [lexLe, h]
        · right; simp [lexLe, h]
      · rcases lt_trichotomy a b with h | h | h
        · left; simp [lexLe, hab, h]
        · exact absurd h hab
        · right
          have hba : ¬ b = a := fun hh => hab hh.symm
          simp [lexLe, hba, h]

theorem lexLe_trans :
    ∀ (x y z : List Char), lexLe x y = true → lexLe y z = true → lexLe x z = true := by
  intro x
  induction x with
  | nil => intro y z _ _; rfl
  | cons a as ih =>
    intro y z hxy hyz
    cases y with
    | nil => simp [lexLe] at hxy
    | cons b bs =>
      cases z with
      | nil => simp [lexLe] at hyz
      | cons c cs =>
        by_cases hab : a = b
        · subst hab
          by_cases hac : a = c
          · subst hac
            simp only [lexLe, if_pos rfl] at hxy hyz ⊢
            exact ih bs cs hxy hyz
          · simp only [lexLe, if_neg hac] at hyz ⊢
            exact hyz
        · by_cases hbc : b = c
          · subst hbc
            simp only [lexLe, if_neg hab] at hxy ⊢
            exact hxy
          · simp only [lexLe, if_neg hab, decide_eq_true_eq] at hxy
            simp only [lexLe, if_neg hbc, decide_eq_true_eq] at hyz
            by_cases hac : a = c
            · subst hac
              exact absurd (lt_trans hxy hyz) (lt_irrefl a)
            · simp only [lexLe, if_neg hac, decide_eq_true_eq]
              exact lt_trans hxy hyz

instance : IsTotal String (fun a b => pyStrLe a b = true) :=
  ⟨fun a b => lexLe_total a.toList b.toList⟩

instance : IsTrans String (fun a b => pyStrLe a b = true) :=
  ⟨fun _ _ _ hab hbc => lexLe_trans _ _ _ hab hbc⟩

instance : IsTotal String (fun a b => pyStrLe (pyLower a) (pyLower b) = true) :=
  ⟨fun a b => lexLe_total (pyLower a).toList (pyLower b).toList⟩

instance : IsTrans String (fun a b => pyStrLe (pyLower a) (pyLower b) = true) :=
  ⟨fun _ _ _ hab hbc => lexLe_trans _ _ _ hab hbc⟩

/-! ## Claims -/

/-- C1: the claim states that for aggregate data containing a sample whose
status mapping is exactly `finished -> 0%`, calling `web` with
`force=False` raises and leaves any previously written `index.html`
unchanged.  The code is buggy: the guard condition of lines 200-202
compares the float `finished_fraction` with the string literal `0%`, a
Python cross-type comparison that is always `False`, so the guard never
fires (first conjunct, for every status mapping, fraction and force flag)
and `web` on exactly the guarded input builds and writes a page instead of
raising (second conjunct).  The intent of the claim is documented in the
script itself (comment on lines 197-198 and the error message of lines
203-207), so the claim is right and the code is wrong. -/
theorem C1_guard_dead_code :
    (∀ (d : Dict) (fr : Rat) (fo : Bool), webGuard d fr fo = false)
    ∧ isOkE (webModel webBugData "01/01/2024 00:00:00" false) = true :=
  ⟨webGuard_false, by rfl⟩

/-- C2: for a sample whose status-command output never contains exactly one
line starting with `Jobs status:`, the aggregator makes its at most 5
attempts, then records the status mapping `crab status -> failed` (with the
grafana link still empty) and returns normally, isolating the failure to
this sample. -/
theorem C2_retry_exhausted (outputs : Nat → List String)
    (h : ∀ k, k < 5 → attemptSucceeds (outputs k) = false) :
    aggregateSample outputs =
      .ok { status := failedStatus, grafana := "", jobsfailed := false } := by
  unfold aggregateSample
  rw [findSuccess_none outputs h]

theorem C2_retry_exhausted_witness :
    (∀ k, k < 5 → attemptSucceeds (allFailOutputs k) = false)
    ∧ aggregateSample allFailOutputs =
        .ok { status := failedStatus, grafana := "", jobsfailed := false } :=
  ⟨by decide, C2_retry_exhausted allFailOutputs (by decide)⟩

/-- C3 counterexample: the claim states that only lines beginning with a
known job-status keyword produce a status entry.  The line
`notfinished 10%` begins with none of the keywords (first conjunct), yet
parsing it from an empty record produces the entry `finished -> 10%`
(second and third conjuncts), because line 350 of the script tests substring
containment (`status in words[0]`), not a prefix. -/
theorem C3_prefix_counterexample :
    knownStatuses.all (fun s => !(pyStartswith "notfinished 10%" s)) = true
    ∧ parseLineE emptyParseState "notfinished 10%" = .ok c3StateAfter
    ∧ dictGet? c3StateAfter.status "finished" = some "10%" :=
  ⟨by decide, by rfl, by rfl⟩

/-- C3 (amended): for every parsed line, each known keyword that occurs as
a substring of the first whitespace token of the line (after removal of the
`Jobs status:` marker) has its status entry set to the second token of the
line, or to the sentinel `<none>` when the line has no second token; every
known keyword not occurring in the first token keeps its previous entry,
and keys outside the keyword set are never touched. -/
theorem C3_keyword_substring (st st' : ParseState) (line : String)
    (hok : parseLineE st line = .ok st') :
    (∀ k ∈ knownStatuses,
      dictGet? st'.status k =
        if pyIn k (lineFirstWord line) = true then some (lineFrac line)
        else dictGet? st.status k)
    ∧ (∀ k, k ∉ knownStatuses → dictGet? st'.status k = dictGet? st.status k) :=
  ⟨fun k hk => parseLineE_get_known st st' line k hk hok,
   fun k hk => parseLineE_get_unknown st st' line k hk hok⟩

theorem C3_keyword_substring_witness :
    parseLineE initParseState "finished 55%" = .ok c3WitnessState
    ∧ dictGet? c3WitnessState.status "finished" =
        (if pyIn "finished" (lineFirstWord "finished 55%") = true
         then some (lineFrac "finished 55%")
         else dictGet? initParseState.status "finished") :=
  ⟨by rfl,
   (C3_keyword_substring initParseState c3WitnessState "finished 55%" (by rfl)).1
     "finished" (by decide)⟩

/-- C4: when the progress bar renders a status mapping (all referenced
percentages parseable), it emits one segment per status present among
finished, transferring, running, failed, in that fixed order (first
conjunct); each segment width is the parsed percentage value of its status
(second conjunct); each left offset is the sum of the widths of the
preceding emitted segments (third conjunct); and the overlay text
space-joins all present status/percentage pairs (fourth conjunct). -/
theorem C4_progress_bar (pv : Dict) (segs : List Segment)
    (h : progressSegments pv = some segs) :
    segs.map Segment.status = presentStatuses pv
    ∧ (∀ seg ∈ segs, pvFloat? pv seg.status = some seg.width)
    ∧ (∀ i (hi : i < segs.length),
        (segs.get ⟨i, hi⟩).left = ((segs.take i).map Segment.width).sum)
    ∧ progressText pv = String.intercalate " " (pv.map (fun p => p.1 ++ ": " ++ p.2)) := by
  unfold progressSegments at h
  obtain ⟨h1, h2, h3⟩ := progressSegmentsAux_spec pv barColors 0 segs h
  refine ⟨h1, h2, ?_, rfl⟩
  intro i hi
  rw [h3 i hi, zero_add]

theorem C4_progress_bar_witness :
    progressSegments pv50 = some segs50
    ∧ segs50.map Segment.status = presentStatuses pv50 :=
  ⟨by decide, (C4_progress_bar pv50 segs50 (by decide)).1⟩

/-- C5 counterexample: the claim states that the keys of every status
mapping are always drawn from the fixed keyword set.  A sample whose
status command keeps failing ends with the mapping `crab status -> failed`
(first conjunct), and `crab status` is a key outside the fixed set (second
and third conjuncts). -/
theorem C5_failure_key_counterexample :
    aggregateSample allFailOutputs =
      .ok { status := failedStatus, grafana := "", jobsfailed := false }
    ∧ "crab status" ∈ dictKeys failedStatus
    ∧ "crab status" ∉ knownStatuses :=
  ⟨by rfl, by decide, by decide⟩

/-- C5 (amended): after aggregation of a sample, every key of its status
mapping is drawn from the fixed keyword set, except for the failure marker
key `crab status` that replaces the mapping when all retry attempts are
exhausted. -/
theorem C5_status_keys (outputs : Nat → List String) (st : ParseState)
    (hok : aggregateSample outputs = .ok st) :
    ∀ k ∈ dictKeys st.status, k ∈ knownStatuses ∨ k = "crab status" := by
  intro k hk
  unfold aggregateSample at hok
  cases hfs : findSuccess outputs with
  | none =>
    rw [hfs] at hok
    rw [Except.ok.injEq] at hok
    subst hok
    right
    simpa [failedStatus, dictKeys] using hk
  | some i =>
    rw [hfs] at hok
    rcases parseLinesE_keys k (outputs i) initParseState st hok hk with hmem | hmem
    · left
      have hfin : k = "finished" := by simpa [initParseState, dictKeys] using hmem
      subst hfin
      decide
    · exact Or.inl hmem

theorem C5_status_keys_witness :
    aggregateSample okOutputs = .ok okParsedState
    ∧ ("finished" ∈ knownStatuses ∨ "finished" = "crab status") :=
  ⟨by rfl, C5_status_keys okOutputs okParsedState (by rfl) "finished" (by decide)⟩

/-- C6 counterexample: the claim states that the polling pass and the
rendering pass sort by the same key, the full discovered path.  The
renderer sorts the keys of the samples dict, which are the path basenames
(line 298), case-insensitively; on the two paths of `pathsC6` this order
agrees neither with the case-insensitively sorted full paths (first
conjunct) nor with the polling order of the full paths (second conjunct),
so the two passes do not sort by the same key. -/
theorem C6_sort_key_counterexample :
    sortSamplesForRender (pathsC6.map pyBasename) ≠
      (sortSamplesForRender pathsC6).map pyBasename
    ∧ sortSamplesForRender (pathsC6.map pyBasename) ≠
        (discoveredOrder pathsC6).map pyBasename :=
  ⟨by decide, by decide⟩

/-- C6 (amended): the polling loop visits samples in sorted order of their
full discovered paths (case-sensitively), and the renderer visits samples
in case-insensitive sorted order of its keys, which are the basenames of
those paths, not the full paths: both passes sort (sortedness and
permutation of the respective inputs), but on different keys. -/
theorem C6_sort_orders (paths keys : List String) :
    List.Sorted (fun a b : String => pyStrLe a b = true) (discoveredOrder paths)
    ∧ (discoveredOrder paths).Perm paths
    ∧ List.Sorted (fun a b : String => pyStrLe (pyLower a) (pyLower b) = true)
        (sortSamplesForRender keys)
    ∧ (sortSamplesForRender keys).Perm keys
    ∧ sampleKeys paths = (discoveredOrder paths).map pyBasename :=
  ⟨List.sorted_insertionSort _ _, List.perm_insertionSort _ _,
   List.sorted_insertionSort _ _, List.perm_insertionSort _ _, rfl⟩

/-- C7 counterexample: the claim states that parsing never raises.  A line
that starts with the dashboard marker but has fewer than 4 whitespace
tokens makes line 360 of the script (`words[3]`) raise an uncaught
`IndexError`. -/
theorem C7_parse_raises_counterexample :
    parseLinesE initParseState ["Dashboard monitoring URL"] =
      .error "IndexError: list index out of range" := by
  rfl

/-- C7 (amended): parsing a list of output lines never raises, provided
every line starting with the dashboard marker (after removal of the
`Jobs status:` marker) has at least 4 whitespace tokens; in particular all
unrecognized lines are ignored without failure, and the only remaining
parse-level failure is the `IndexError` of a short dashboard line.  The
missing `Jobs status:` line is handled by the retry logic of the
aggregator, not raised during parsing. -/
theorem C7_parse_no_raise (st : ParseState) (lines : List String)
    (h : ∀ l ∈ lines,
      pyStartswith (pyReplace l "Jobs status:" "") "Dashboard monitoring URL" = true →
      4 ≤ (lineWords l).length) :
    ∃ st', parseLinesE st lines = .ok st' := by
  induction lines generalizing st with
  | nil => exact ⟨st, rfl⟩
  | cons l rest ih =>
    have hline : ∃ st2, parseLineE st l = .ok st2 := by
      unfold parseLineE
      by_cases he : (lineWords l).isEmpty
      · rw [if_pos he]
        exact ⟨st, rfl⟩
      · rw [if_neg he]
        by_cases hd :
            pyStartswith (pyReplace l "Jobs status:" "") "Dashboard monitoring URL" = true
        · have hlen := h l (List.mem_cons_self l rest) hd
          rw [if_pos hd]
          cases hg : (lineWords l).get? 3 with
          | none =>
            exfalso
            rw [List.get?_eq_none] at hg
            omega
          | some url =>
            exact ⟨_, rfl⟩
        · rw [if_neg hd]
          exact ⟨_, rfl⟩
    obtain ⟨st2, hst2⟩ := hline
    obtain ⟨st', hrest⟩ := ih st2 (fun x hx => h x (List.mem_cons_of_mem l hx))
    refine ⟨st', ?_⟩
    unfold parseLinesE
    rw [hst2]
    exact hrest

theorem C7_parse_no_raise_witness :
    (∀ l ∈ c7Lines,
      pyStartswith (pyReplace l "Jobs status:" "") "Dashboard monitoring URL" = true →
      4 ≤ (lineWords l).length)
    ∧ ∃ st', parseLinesE initParseState c7Lines = .ok st' :=
  ⟨by decide, C7_parse_no_raise initParseState c7Lines (by decide)⟩

/-- C8 counterexample: the claim states that the completion signal fires
when any line of a successfully retrieved output contains the scheduler
marker together with `COMPLETED` while the results file is missing.  The
output `linesC8` is successfully retrieved (first conjunct) and contains
such a line (second conjunct), the results file is absent, yet the signal
stays off (third conjunct), because the check of lines 362-366 sits after
the line loop and therefore inspects only the last line. -/
theorem C8_any_line_counterexample :
    attemptSucceeds linesC8 = true
    ∧ (∃ l ∈ linesC8, pyIn "Status on the scheduler" l = true ∧ pyIn "COMPLETED" l = true)
    ∧ statusCompleted linesC8 false = false :=
  ⟨by decide, by decide, by decide⟩

/-- C8 (amended): the completion signal fires exactly when the last output
line (after removal of the `Jobs status:` marker) contains the scheduler
marker together with `COMPLETED` and the results file is absent.  The
signal only triggers a console report; it feeds into no state change. -/
theorem C8_completed_last_line (outlines : List String) (resultsExists : Bool) :
    statusCompleted outlines resultsExists = true ↔
      ∃ l0, outlines.getLast? = some l0
        ∧ pyIn "Status on the scheduler" (pyReplace l0 "Jobs status:" "") = true
        ∧ pyIn "COMPLETED" (pyReplace l0 "Jobs status:" "") = true
        ∧ resultsExists = false := by
  unfold statusCompleted
  cases hl : outlines.getLast? with
  | none => simp
  | some l0 =>
    dsimp only
    constructor
    · intro h
      by_cases h1 : pyIn "Status on the scheduler" (pyReplace l0 "Jobs status:" "") = true
      · rw [if_pos h1] at h
        by_cases h2 : pyIn "COMPLETED" (pyReplace l0 "Jobs status:" "") = true
        · rw [if_pos h2] at h
          exact ⟨l0, rfl, h1, h2, by simpa using h⟩
        · rw [if_neg h2] at h
          exact absurd h (by simp)
      · rw [if_neg h1] at h
        exact absurd h (by simp)
    · rintro ⟨l0', hl0, h1, h2, h3⟩
      rw [Option.some.injEq] at hl0
      subst hl0
      rw [if_pos h1, if_pos h2, h3]
      rfl

/-- C9: for every input data mapping, timestamp and output, calling `web`
with `force=False` behaves exactly like calling it with `force=True`: the
same exception is raised, or the identical HTML document is written.  This
holds because the only use of the force flag is the stale-status guard,
whose condition is always false (see C1). -/
theorem C9_force_irrelevant (data : MonitorData) (now : String) (force : Bool) :
    webModel data now force = webModel data now true := by
  unfold webModel
  simp only [webSampleRow_force]

/-- C10: after aggregating a sample, its status mapping either is exactly
the failure marker `crab status -> failed` or contains the key `finished`
(first conjunct); and when polling succeeded but no output line mentions
`finished` in its first token, the default entry `finished -> 0%` created
at initialization is still present, unchanged (second conjunct): entries
are only ever overwritten, never removed. -/
theorem C10_finished_key (outputs : Nat → List String) (st : ParseState)
    (hok : aggregateSample outputs = .ok st) :
    (st.status = failedStatus ∨ "finished" ∈ dictKeys st.status)
    ∧ (∀ i, findSuccess outputs = some i →
        (∀ l ∈ outputs i, pyIn "finished" (lineFirstWord l) = false) →
        dictGet? st.status "finished" = some "0%") := by
  unfold aggregateSample at hok
  cases hfs : findSuccess outputs with
  | none =>
    rw [hfs] at hok
    rw [Except.ok.injEq] at hok
    subst hok
    refine ⟨Or.inl rfl, ?_⟩
    intro i hi
    simp at hi
  | some i0 =>
    rw [hfs] at hok
    constructor
    · right
      rw [mem_dictKeys_iff]
      refine parseLinesE_get_ne_none "finished" (outputs i0) initParseState st hok ?_
      simp [initParseState, dictGet?]
    · intro i hi hall
      rw [Option.some.injEq] at hi
      subst hi
      rw [parseLinesE_get_unchanged "finished" (by decide) (outputs i0)
        initParseState st hok hall]
      simp [initParseState, dictGet?]

theorem C10_finished_key_witness :
    aggregateSample okOutputs = .ok okParsedState
    ∧ (okParsedState.status = failedStatus ∨ "finished" ∈ dictKeys okParsedState.status) :=
  ⟨by rfl, (C10_finished_key okOutputs okParsedState (by rfl)).1⟩
